import Mathlib

/-!
Verification of the polidoc-backend graph API.

The repository is a thin read-only HTTP API (FastAPI) over a Neo4j graph
store of insurance policy documents.  We shallowly embed:

* the graph-store data model (`Form`, `Coverage`, `Paragraph` nodes and the
  `Related_Coverage` / `Maps_To` relationships) as plain Lean structures
  over lists;
* every route handler of `app/routers/graph.py` as a pure function from a
  connection outcome (`Conn`) and its request parameters to an HTTP-level
  `Response`;
* the legacy HTTP query gateway `app/config/neo4j_config.py`
  (`Neo4jConnection.execute_query`): its request payload construction and
  its row-extraction loop.

Cypher queries are translated clause by clause: pattern matching becomes
iteration over the edge lists, `WHERE` becomes a filter, `RETURN DISTINCT`
becomes `List.dedup`, and `ORDER BY` becomes `List.insertionSort` on the
corresponding key.
-/

/-- A `Form` node: `State`, `Form_Type`, `Form_Name`, `Form_Number`. -/
structure Form where
  State : String
  Form_Type : String
  Form_Name : String
  Form_Number : String
deriving DecidableEq, Repr

/-- A `Coverage` node: `Coverage` (code) and `Cov_For` (name). -/
structure Coverage where
  Coverage : String
  Cov_For : String
deriving DecidableEq, Repr

/-- A `Paragraph` node with the attributes the queries touch. -/
structure Paragraph where
  Policy_Form : String
  Paragraph_Number : Int
  Section : String
  Subsection : String
  List_Item : String
  «Type» : String
  Page : Int
  Text : String
deriving DecidableEq, Repr

/-- A `Maps_To` relationship from the paragraph node with id `para` to a
`Map_Term` node carrying `Term`; the relationship carries `Map_Type`. -/
structure MapsTo where
  para : Nat
  Map_Type : String
  Term : String
deriving DecidableEq, Repr

/-- A `Related_Coverage` relationship between the paragraph node with id
`para` and the coverage node with id `cov`. -/
structure RelatedCoverage where
  para : Nat
  cov : Nat
deriving DecidableEq, Repr

/-- The state of the external graph store.  Paragraph and coverage nodes
carry explicit ids so relationships can refer to them.  `nodePolicyTypes`
and `relPolicyTypes` model the `Policy_Type` values carried by nodes
(resp. relationships) that have one, for the `/policy-types` query. -/
structure GraphStore where
  forms : List Form
  paragraphs : List (Nat × Paragraph)
  coverages : List (Nat × Coverage)
  relatedCoverage : List RelatedCoverage
  mapsTo : List MapsTo
  nodePolicyTypes : List String
  relPolicyTypes : List String
deriving DecidableEq, Repr

/-- Look up the paragraph node with the given id. -/
def findPara (s : GraphStore) (id : Nat) : Option Paragraph :=
  (s.paragraphs.find? (fun e => e.1 == id)).map Prod.snd

/-- Look up the coverage node with the given id. -/
def findCov (s : GraphStore) (id : Nat) : Option Coverage :=
  (s.coverages.find? (fun e => e.1 == id)).map Prod.snd

/-!
## Ordering toolkit

Cypher `ORDER BY` sorts rows ascending by a key.  We model the ordering with
computable strict comparators (`Bool`-valued, so concrete results evaluate by
`decide`/`rfl`): codepoint-lexicographic order on strings, its lexicographic
extension to lists, and the derived non-strict order `keyLe` used as the
sorting relation on projected rows.
-/

/-- A strict total order presented as a boolean comparator. -/
structure StrictLt (lt : α → α → Bool) : Prop where
  asymm : ∀ a b, lt a b = true → lt b a = false
  trans : ∀ a b c, lt a b = true → lt b c = true → lt a c = true
  conn : ∀ a b, lt a b = false → lt b a = false → a = b

theorem StrictLt.irrefl {lt : α → α → Bool} (h : StrictLt lt) (a : α) :
    lt a a = false := by
  cases hx : lt a a with
  | false => rfl
  | true =>
    have hf := h.asymm a a hx
    rw [hf] at hx
    exact hx.symm

/-- Lexicographic extension of a strict comparator to lists. -/
def lexListLt (lt : α → α → Bool) : List α → List α → Bool
  | [], [] => false
  | [], _ :: _ => true
  | _ :: _, [] => false
  | a :: as, b :: bs =>
    if lt a b then true
    else if lt b a then false
    else lexListLt lt as bs

theorem lexListLt_strict {lt : α → α → Bool} (h : StrictLt lt) :
    StrictLt (lexListLt lt) := by
  constructor
  · intro a
    induction a with
    | nil => intro b hb; cases b <;> simp_all [lexListLt]
    | cons x xs ih =>
      intro b hb
      cases b with
      | nil => simp [lexListLt] at hb
      | cons y ys =>
        simp only [lexListLt] at hb ⊢
        cases hxy : lt x y with
        | true => simp [hxy, h.asymm x y hxy]
        | false =>
          cases hyx : lt y x with
          | true => simp [hxy, hyx] at hb
          | false =>
            simp only [hxy, hyx, if_false] at hb ⊢
            exact ih ys hb
  · intro a
    induction a with
    | nil =>
      intro b c hb hc
      cases b <;> cases c <;> simp_all [lexListLt]
    | cons x xs ih =>
      intro b c hb hc
      cases b with
      | nil => simp [lexListLt] at hb
      | cons y ys =>
        cases c with
        | nil => simp [lexListLt] at hc
        | cons z zs =>
          simp only [lexListLt] at hb hc ⊢
          cases hxy : lt x y with
          | true =>
            cases hyz : lt y z with
            | true => simp [h.trans x y z hxy hyz]
            | false =>
              cases hzy : lt z y with
              | true => simp [hyz, hzy] at hc
              | false =>
                have : y = z := h.conn y z hyz hzy
                subst this
                simp [hxy]
          | false =>
            cases hyx : lt y x with
            | true => simp [hxy, hyx] at hb
            | false =>
              have : x = y := h.conn x y hxy hyx
              subst this
              simp only [hxy, hyx, if_false] at hb
              cases hxz : lt x z with
              | true => simp
              | false =>
                cases hzx : lt z x with
                | true => simp [hxz, hzx] at hc
                | false =>
                  have : x = z := h.conn x z hxz hzx
                  subst this
                  simp only [hxz, if_false] at hc ⊢
                  exact ih ys zs hb hc
  · intro a
    induction a with
    | nil => intro b hb _; cases b <;> simp_all [lexListLt]
    | cons x xs ih =>
      intro b hab hba
      cases b with
      | nil => simp [lexListLt] at hba
      | cons y ys =>
        simp only [lexListLt] at hab hba
        cases hxy : lt x y with
        | true => simp [hxy] at hab
        | false =>
          cases hyx : lt y x with
          | true => simp [hxy, hyx] at hba
          | false =>
            have : x = y := h.conn x y hxy hyx
            subst this
            simp only [hxy, if_false] at hab hba
            rw [ih ys hab hba]

/-- Codepoint-strict order on characters. -/
def charLt (a b : Char) : Bool := a.toNat < b.toNat

theorem charLt_strict : StrictLt charLt := by
  constructor
  · intro a b hab
    simp only [charLt, decide_eq_true_eq, decide_eq_false_iff_not, not_lt] at hab ⊢
    omega
  · intro a b c hab hbc
    simp only [charLt, decide_eq_true_eq] at hab hbc ⊢
    omega
  · intro a b hab hba
    simp only [charLt, decide_eq_false_iff_not, not_lt] at hab hba
    have hn : a.toNat = b.toNat := by omega
    exact Char.eq_of_val_eq (UInt32.eq_of_toBitVec_eq (BitVec.eq_of_toNat_eq hn))

/-- Codepoint-lexicographic strict order on strings. -/
def strLt (a b : String) : Bool := lexListLt charLt a.data b.data

theorem strLt_strict : StrictLt strLt := by
  have h := lexListLt_strict charLt_strict
  constructor
  · intro a b hab; exact h.asymm _ _ hab
  · intro a b c hab hbc; exact h.trans _ _ _ hab hbc
  · intro a b hab hba
    have hd := h.conn _ _ hab hba
    cases a; cases b; exact congrArg String.mk hd

/-- Strict order on integers as a boolean comparator. -/
def intLt (a b : Int) : Bool := a < b

theorem intLt_strict : StrictLt intLt := by
  constructor
  · intro a b hab
    simp only [intLt, decide_eq_true_eq, decide_eq_false_iff_not, not_lt] at hab ⊢
    omega
  · intro a b c hab hbc
    simp only [intLt, decide_eq_true_eq] at hab hbc ⊢
    omega
  · intro a b hab hba
    simp only [intLt, decide_eq_false_iff_not, not_lt] at hab hba
    omega

/-- The ascending sort relation induced by a strict comparator on a key. -/
def keyLe (kLt : κ → κ → Bool) (k : α → κ) (a b : α) : Prop :=
  kLt (k b) (k a) = false

instance (kLt : κ → κ → Bool) (k : α → κ) : DecidableRel (keyLe kLt k) :=
  fun a b => inferInstanceAs (Decidable (_ = false))

theorem keyLe_total {kLt : κ → κ → Bool} (h : StrictLt kLt) (k : α → κ) :
    ∀ a b, keyLe kLt k a b ∨ keyLe kLt k b a := by
  intro a b
  by_cases hba : kLt (k b) (k a) = true
  · exact Or.inr (h.asymm _ _ hba)
  · exact Or.inl (by simpa using hba)

theorem keyLe_trans {kLt : κ → κ → Bool} (h : StrictLt kLt) (k : α → κ) :
    ∀ a b c, keyLe kLt k a b → keyLe kLt k b c → keyLe kLt k a c := by
  intro a b c hab hbc
  unfold keyLe at *
  by_cases hca : kLt (k c) (k a) = true
  · by_cases h1 : kLt (k a) (k b) = true
    · have := h.trans _ _ _ hca h1
      rw [this] at hbc; cases hbc
    · have : k a = k b := h.conn _ _ (by simpa using h1) hab
      rw [← this] at hbc
      rw [hca] at hbc; cases hbc
  · simpa using hca

/-- `IsTotal` instance packaged from `StrictLt`, for `sorted_insertionSort`. -/
theorem keyLe_isTotal {kLt : κ → κ → Bool} (h : StrictLt kLt) (k : α → κ) :
    IsTotal α (keyLe kLt k) := ⟨keyLe_total h k⟩

theorem keyLe_isTrans {kLt : κ → κ → Bool} (h : StrictLt kLt) (k : α → κ) :
    IsTrans α (keyLe kLt k) := ⟨keyLe_trans h k⟩

/-- Sortedness of `insertionSort` along a key, instantiated from `StrictLt`. -/
theorem sorted_insertionSort_key {kLt : κ → κ → Bool} (h : StrictLt kLt)
    (k : α → κ) (l : List α) :
    (List.insertionSort (keyLe kLt k) l).Sorted (keyLe kLt k) :=
  @List.sorted_insertionSort α (keyLe kLt k) _ (keyLe_isTotal h k)
    (keyLe_isTrans h k) l

/-!
## HTTP-level model

Each route handler of `app/routers/graph.py` is embedded as a pure function
from a connection outcome and its request parameters to a `Response`.

* `Conn.down msg` models `get_neo4j_driver` failing (`verify_connectivity`
  raises): the dependency raises `HTTPException(500, "Database connection
  failed: " + msg)` before the handler body runs.
* `Conn.up s qerr` models a live session over store `s`; `qerr = some m`
  means `session.run` raises an exception with message `m` (query-execution
  or store-reported error surfaced by the driver).

Inside a handler body, raising is modelled by `Except Exc`; the trailing
`except Exception as e: raise HTTPException(500, prefix + str(e))` of every
handler is the `handleExc` wrapper.  Crucially it also catches an
`HTTPException` raised inside the `try` block, stringified by Python as
`"<status>: <detail>"` (`Exc.str`).
-/

/-- An HTTP error response: status code and `detail` body. -/
structure HTTPError where
  status : Nat
  detail : String
deriving DecidableEq, Repr

/-- Outcome of a route handler: a 200 body or an `HTTPException`. -/
inductive Response (α : Type) where
  | ok : α → Response α
  | error : HTTPError → Response α
deriving DecidableEq, Repr

/-- A Python exception as observed by a handler's `except` clause: either an
`HTTPException` (status, detail) or a driver/store exception with message. -/
inductive Exc where
  | http : Nat → String → Exc
  | store : String → Exc
deriving DecidableEq, Repr

/-- Python's `str(e)`: `HTTPException` prints as `"<status>: <detail>"`,
a driver exception as its message. -/
def Exc.str : Exc → String
  | .http s d => toString s ++ ": " ++ d
  | .store m => m

/-- Connection outcome delivered by the `get_neo4j_session` dependency. -/
inductive Conn where
  | down : String → Conn
  | up : GraphStore → Option String → Conn

/-- The 500 raised by `get_neo4j_driver` when connectivity fails. -/
def connFail (msg : String) : Response α :=
  .error ⟨500, "Database connection failed: " ++ msg⟩

/-- `session.run`: either raises the session's pending error or yields the
rows the embedded query computes from the store. -/
def runQuery (qerr : Option String) (rows : List ρ) : Except Exc (List ρ) :=
  match qerr with
  | some m => .error (.store m)
  | none => .ok rows

/-- The `try/except` wrapper closing every handler: any exception raised in
the body is re-raised as `HTTPException(500, pre + str(e))`. -/
def handleExc (pre : String) (body : Except Exc α) : Response α :=
  match body with
  | .ok a => .ok a
  | .error e => .error ⟨500, pre ++ e.str⟩

/-!
## Query embeddings

One definition per Cypher query, translated clause by clause.
`RETURN DISTINCT` is `List.dedup`, `ORDER BY k` is `List.insertionSort`
with the ascending relation `keyLe` on the key `k`.
-/

/-- Row of `/form-coverages/{form_number}`:
`coverage_code`, `coverage_name`. -/
structure CoverageRow where
  coverage_code : String
  coverage_name : String
deriving DecidableEq, Repr

/-- Row of `/form-coverage-terms/{form_number}/{coverage_code}`. -/
structure CoverageTermRow where
  coverage_code : String
  map_type : String
  term : String
deriving DecidableEq, Repr

/-- Row of `/all-paragraphs`. -/
structure AllParagraphRow where
  ParagraphNumber : Int
  Section : String
  Subsection : String
  Text : String
  Page : Int
deriving DecidableEq, Repr

/-- Row of `POST /query`. -/
structure ParagraphRow where
  Section : String
  Subsection : String
  ListItem : String
  «Type» : String
  ParagraphNumber : Int
  Page : Int
  Text : String
deriving DecidableEq, Repr

/-- `MATCH (n:Form) RETURN {State, Form_Type, Form_Name, Form_Number}`. -/
def q_forms (s : GraphStore) : List Form := s.forms

/-- `/policy-types`: node-level and relationship-level `Policy_Type`
values, each side `DISTINCT` and capped at 25. -/
def q_policy_types (s : GraphStore) : List (String × String) :=
  ((s.nodePolicyTypes.map (fun t => ("node", t))).dedup.take 25) ++
    ((s.relPolicyTypes.map (fun t => ("relationship", t))).dedup.take 25)

/-- `MATCH (n:Coverage) RETURN n LIMIT 25`. -/
def q_coverages (s : GraphStore) : List Coverage :=
  (s.coverages.map Prod.snd).take 25

/-- `MATCH (f:Form) WHERE f.Form_Number = $form_number
RETURN f.Form_Type as policy_type`. -/
def q_policy_type (s : GraphStore) (form_number : String) : List String :=
  (s.forms.filter (fun f => f.Form_Number == form_number)).map Form.Form_Type

/-- One match of
`(p:Paragraph)-[y:Related_Coverage]-(c:Coverage)` with the `WHERE` clause of
`/form-coverages/{form_number}`, projected to its `RETURN` row. -/
def coverageRow? (s : GraphStore) (form_number : String)
    (y : RelatedCoverage) : Option CoverageRow :=
  match findPara s y.para, findCov s y.cov with
  | some p, some c =>
    if p.Policy_Form = form_number then
      some ⟨c.Coverage, c.Cov_For⟩
    else none
  | _, _ => none

/-- `/form-coverages/{form_number}` query:
`RETURN DISTINCT c.Coverage as coverage_code, c.Cov_For as coverage_name
ORDER BY c.Coverage`. -/
def q_coverages_by_form (s : GraphStore) (form_number : String) :
    List CoverageRow :=
  List.insertionSort (keyLe strLt CoverageRow.coverage_code)
    (s.relatedCoverage.filterMap (coverageRow? s form_number)).dedup

/-- One match of
`(m:Map_Term)-[x:Maps_To]-(p:Paragraph)-[y:Related_Coverage]-(c:Coverage)`
with the `WHERE` clause of `/form-coverage-terms`, projected to its row. -/
def coverageTermRow? (s : GraphStore) (form_number coverage_code : String)
    (x : MapsTo) (y : RelatedCoverage) : Option CoverageTermRow :=
  match findPara s x.para, findCov s y.cov with
  | some p, some c =>
    if y.para = x.para ∧ p.Policy_Form = form_number ∧ x.Map_Type ≠ "None" ∧
        c.Coverage = coverage_code ∧ p.Type ≠ "Section Title" ∧
        p.Type ≠ "Subsection Title" then
      some ⟨c.Coverage, x.Map_Type, x.Term⟩
    else none
  | _, _ => none

/-- Sort key of `/form-coverage-terms`:
`ORDER BY c.Coverage, x.Map_Type, m.Term`. -/
def ctKey (r : CoverageTermRow) : List String :=
  [r.coverage_code, r.map_type, r.term]

/-- `/form-coverage-terms/{form_number}/{coverage_code}` query. -/
def q_coverage_terms (s : GraphStore) (form_number coverage_code : String) :
    List CoverageTermRow :=
  List.insertionSort (keyLe (lexListLt strLt) ctKey)
    (s.mapsTo.bind (fun x =>
      s.relatedCoverage.filterMap
        (coverageTermRow? s form_number coverage_code x))).dedup

/-- One match of `(p:Paragraph)-[r:Maps_To]->(m:Map_Term)` with the `WHERE`
clause of `/ccq-list`, projected to `(mapType, term)`. -/
def ccqRow? (s : GraphStore) (policy_form : String) (x : MapsTo) :
    Option (String × String) :=
  match findPara s x.para with
  | some p =>
    if x.Map_Type ∈
          ["Non-Covered Peril", "Limit of Liability", "Property Not Covered"] ∧
        p.Policy_Form = policy_form then
      some (x.Map_Type, x.Term)
    else none
  | none => none

/-- `/ccq-list` query:
`RETURN DISTINCT r.Map_Type as mapType, m.Term AS term ORDER BY term`. -/
def q_ccq (s : GraphStore) (policy_form : String) : List (String × String) :=
  List.insertionSort (keyLe strLt Prod.snd)
    (s.mapsTo.filterMap (ccqRow? s policy_form)).dedup

/-- Projection of `/all-paragraphs`. -/
def allParaProject (p : Paragraph) : AllParagraphRow :=
  ⟨p.Paragraph_Number, p.Section, p.Subsection, p.Text, p.Page⟩

/-- `/all-paragraphs` query (no `DISTINCT`):
paragraphs of the form, `ORDER BY p.Paragraph_Number`. -/
def q_all_paragraphs (s : GraphStore) (policy_form : String) :
    List AllParagraphRow :=
  List.insertionSort (keyLe intLt AllParagraphRow.ParagraphNumber)
    (((s.paragraphs.map Prod.snd).filter
        (fun p => p.Policy_Form == policy_form)).map allParaProject)

/-- Projection of `POST /query`. -/
def paraProject (p : Paragraph) : ParagraphRow :=
  ⟨p.Section, p.Subsection, p.List_Item, p.Type, p.Paragraph_Number, p.Page,
    p.Text⟩

/-- The disjunctive `WHERE` clause of `POST /query` for one paragraph node
`(i, p)`: term-mapping clause, `Policy Title Section` clause, manual
selection by stringified paragraph number. -/
def paraMatches (s : GraphStore) (policy_form : String)
    (terms manually_selected_paragraphs : List String)
    (e : Nat × Paragraph) : Bool :=
  e.2.Policy_Form == policy_form &&
    ((s.mapsTo.any (fun x => x.para == e.1) &&
        terms.any (fun t =>
          s.mapsTo.any (fun x => x.para == e.1 && x.Term == t))) ||
      e.2.Type == "Policy Title Section" ||
      manually_selected_paragraphs.contains (toString e.2.Paragraph_Number))

/-- `POST /query` query: matching paragraphs, `RETURN DISTINCT`,
`ORDER BY p.Paragraph_Number`. -/
def q_query_paragraphs (s : GraphStore) (policy_form : String)
    (terms manually_selected_paragraphs : List String) : List ParagraphRow :=
  List.insertionSort (keyLe intLt ParagraphRow.ParagraphNumber)
    ((s.paragraphs.filter
        (paraMatches s policy_form terms manually_selected_paragraphs)).map
      (fun e => paraProject e.2)).dedup

/-!
## Route handlers of `app/routers/graph.py`

Each handler acquires the session (failing with the dependency's 500 if the
store is unreachable), runs its query inside `try`, post-processes the rows,
and wraps any raised exception — `HTTPException` included — as a 500 with
the handler's message prefix.
-/

/-- `GET /forms`. -/
def get_forms (c : Conn) : Response (List Form) :=
  match c with
  | .down msg => connFail msg
  | .up s qerr =>
    handleExc "Failed to fetch forms: " (do
      let forms ← runQuery qerr (q_forms s)
      pure forms)

/-- `GET /policy-types`. -/
def get_policy_types (c : Conn) : Response (List (String × String)) :=
  match c with
  | .down msg => connFail msg
  | .up s qerr =>
    handleExc "Failed to fetch policy types: " (do
      let policy_types ← runQuery qerr (q_policy_types s)
      pure policy_types)

/-- `GET /coverages`. -/
def get_coverages (c : Conn) : Response (List Coverage) :=
  match c with
  | .down msg => connFail msg
  | .up s qerr =>
    handleExc "Failed to fetch coverages: " (do
      let coverages ← runQuery qerr (q_coverages s)
      pure coverages)

/-- Body of `GET /form-policy-type/{form_number}`: `result.single()` yields
the first row or `None`; on `None` the handler raises
`HTTPException(404, ...)` — inside the `try` block. -/
def get_policy_type_body (s : GraphStore) (qerr : Option String)
    (form_number : String) : Except Exc String := do
  let rows ← runQuery qerr (q_policy_type s form_number)
  match rows.head? with
  | none =>
    .error (.http 404 ("Form not found with form number: " ++ form_number))
  | some policy_type => pure policy_type

/-- `GET /form-policy-type/{form_number}`, returning `{"policy_type": ...}`.
The 404 raised on a missing form is caught by the handler's own blanket
`except Exception` and re-raised as a 500. -/
def get_policy_type_by_form (c : Conn) (form_number : String) :
    Response String :=
  match c with
  | .down msg => connFail msg
  | .up s qerr =>
    handleExc "Failed to fetch policy type: "
      (get_policy_type_body s qerr form_number)

/-- `GET /form-coverages/{form_number}`. -/
def get_coverages_by_form (c : Conn) (form_number : String) :
    Response (List CoverageRow) :=
  match c with
  | .down msg => connFail msg
  | .up s qerr =>
    handleExc "Failed to fetch coverages: " (do
      let coverages ← runQuery qerr (q_coverages_by_form s form_number)
      pure coverages)

/-- `GET /form-coverage-terms/{form_number}/{coverage_code}`. -/
def get_coverage_terms (c : Conn) (form_number coverage_code : String) :
    Response (List CoverageTermRow) :=
  match c with
  | .down msg => connFail msg
  | .up s qerr =>
    handleExc "Failed to fetch coverage terms: " (do
      let terms ← runQuery qerr (q_coverage_terms s form_number coverage_code)
      pure terms)

/-- The grouping loop of `/ccq-list`: append `term` to the entry for
`map_type`, inserting a fresh entry at the end on first sight (Python dicts
preserve insertion order). -/
def addToGroups : List (String × List String) → String → String →
    List (String × List String)
  | [], map_type, term => [(map_type, [term])]
  | g :: gs, map_type, term =>
    if g.1 = map_type then (g.1, g.2 ++ [term]) :: gs
    else g :: addToGroups gs map_type term

/-- The grouped object built by `/ccq-list` from the query rows. -/
def ccqGroups (rows : List (String × String)) : List (String × List String) :=
  rows.foldl (fun gs r => addToGroups gs r.1 r.2) []

/-- `GET /ccq-list`, returning the map-type → terms grouping. -/
def get_ccq_list (c : Conn) (policy_form : String) :
    Response (List (String × List String)) :=
  match c with
  | .down msg => connFail msg
  | .up s qerr =>
    handleExc "Failed to fetch CCQ list: " (do
      let rows ← runQuery qerr (q_ccq s policy_form)
      pure (ccqGroups rows))

/-- `GET /all-paragraphs`. -/
def get_all_paragraphs (c : Conn) (policy_form : String) :
    Response (List AllParagraphRow) :=
  match c with
  | .down msg => connFail msg
  | .up s qerr =>
    handleExc "Failed to fetch all paragraphs: " (do
      let paragraphs ← runQuery qerr (q_all_paragraphs s policy_form)
      pure paragraphs)

/-- `POST /query`: stringifies `manually_selected_paragraphs or []` and runs
the paragraph query. -/
def query_paragraphs (c : Conn) (terms : List String) (policy_form : String)
    (manually_selected_paragraphs : Option (List Int)) :
    Response (List ParagraphRow) :=
  match c with
  | .down msg => connFail msg
  | .up s qerr =>
    let paragraph_numbers :=
      (manually_selected_paragraphs.getD []).map (fun num => toString num)
    handleExc "Failed to execute query: " (do
      let paragraphs ←
        runQuery qerr (q_query_paragraphs s policy_form terms paragraph_numbers)
      pure paragraphs)

/-!
## Application surface (`app/main.py`) and the legacy gateway
(`app/config/neo4j_config.py`)
-/

/-- Route table of the graph router, as `(method, path)` pairs. -/
def graphRoutes : List (String × String) :=
  [("GET", "/forms"), ("GET", "/policy-types"), ("GET", "/coverages"),
    ("GET", "/form-policy-type/\x7bform_number\x7d"),
    ("GET", "/form-coverages/\x7bform_number\x7d"),
    ("GET", "/form-coverage-terms/\x7bform_number\x7d/\x7bcoverage_code\x7d"),
    ("GET", "/ccq-list"), ("GET", "/all-paragraphs"), ("POST", "/query")]

/-- The app mounts the graph router under `/api/v1/graph` and adds the
app-level `GET /health` endpoint. -/
def appRoutes : List (String × String) :=
  graphRoutes.map (fun r => (r.1, "/api/v1/graph" ++ r.2)) ++
    [("GET", "/health")]

/-- Body of `GET /health`. -/
structure HealthOut where
  status : String
  version : String
  environment : String
deriving DecidableEq, Repr

/-- `GET /health` (`app/main.py`): no store access, fixed body. -/
def health_check (environment : String) : HealthOut :=
  { status := "healthy", version := "1.0.0", environment := environment }

/-- One entry of the `statements` array sent by
`Neo4jConnection.execute_query` to the Neo4j HTTP endpoint. -/
structure Neo4jStatement where
  statement : String
  parameters : List (String × String)
  resultDataContents : List String
  includeStats : Bool
deriving DecidableEq, Repr

/-- The request payload `Neo4jConnection.execute_query` builds: one
statement with the query text, an **empty** parameter map (the `params`
argument is never consulted), `resultDataContents: ["row"]`,
`includeStats: true`. -/
def execute_query_payload (query : String)
    (params : List (String × String)) : List Neo4jStatement :=
  [{ statement := query, parameters := [],
     resultDataContents := ["row"], includeStats := true }]

/-- The row-extraction loop of `execute_query`: each data item either lacks
a `row` array (`none`) or carries one; the loop keeps `row[0]` of every item
whose array is non-empty. -/
def extract_records : List (Option (List α)) → List α
  | [] => []
  | item :: rest =>
    match item with
    | some (v :: _) => v :: extract_records rest
    | _ => extract_records rest

/-!
## General lemmas
-/

/-- The store whose node and relationship lists are all empty. -/
def emptyStore : GraphStore := ⟨[], [], [], [], [], [], []⟩

/-- A small concrete store used for witnesses: one form, a title paragraph
and a body paragraph, one coverage related to the body paragraph, and one
`Maps_To` edge classifying the term `flood` as a Non-Covered Peril. -/
def sampleStore : GraphStore :=
  { forms := [⟨"TX", "Homeowners", "Homeowners 3 Special Form", "HO00030511"⟩]
    paragraphs :=
      [(1, ⟨"HO00030511", 1, "Agreement", "", "", "Policy Title Section", 1,
          "We will provide the insurance described."⟩),
        (2, ⟨"HO00030511", 2, "Perils", "Water", "a.", "Body", 3,
          "Flood damage is not covered."⟩)]
    coverages := [(1, ⟨"A", "Dwelling"⟩)]
    relatedCoverage := [⟨2, 1⟩]
    mapsTo := [⟨2, "Non-Covered Peril", "flood"⟩]
    nodePolicyTypes := []
    relPolicyTypes := [] }

theorem handleExc_error_status {α : Type} (pre : String)
    (body : Except Exc α) (e : HTTPError) :
    handleExc pre body = .error e → e.status = 500 := by
  cases body with
  | ok a => intro h; simp [handleExc] at h
  | error ex =>
    intro h
    simp only [handleExc] at h
    injection h with h'
    rw [← h']

theorem connFail_error_status {α : Type} (msg : String) (e : HTTPError) :
    (connFail msg : Response α) = .error e → e.status = 500 := by
  intro h
  simp only [connFail] at h
  injection h with h'
  rw [← h']

theorem nodup_sortDedup {α : Type} [DecidableEq α] (le : α → α → Prop)
    [DecidableRel le] (l : List α) :
    (List.insertionSort le l.dedup).Nodup :=
  (List.perm_insertionSort le l.dedup).nodup_iff.mpr (List.nodup_dedup l)

/-!
## Claims
-/

/-- C2: for every operation, a connectivity failure surfaces as HTTP 500
carrying the underlying message (`Database connection failed: ...`), and a
query-execution or store-reported error raised by the session surfaces as
HTTP 500 carrying the underlying message behind the handler's prefix; in
both cases the result is an error, never a (partial or empty) 200. -/
theorem claim2_dependency_failure_500 (msg m : String) (s : GraphStore)
    (fn cc pf : String) (terms : List String) (ms : Option (List Int)) :
    (get_forms (.down msg) =
        .error ⟨500, "Database connection failed: " ++ msg⟩) ∧
    (get_forms (.up s (some m)) =
        .error ⟨500, "Failed to fetch forms: " ++ m⟩) ∧
    (get_policy_types (.down msg) =
        .error ⟨500, "Database connection failed: " ++ msg⟩) ∧
    (get_policy_types (.up s (some m)) =
        .error ⟨500, "Failed to fetch policy types: " ++ m⟩) ∧
    (get_coverages (.down msg) =
        .error ⟨500, "Database connection failed: " ++ msg⟩) ∧
    (get_coverages (.up s (some m)) =
        .error ⟨500, "Failed to fetch coverages: " ++ m⟩) ∧
    (get_policy_type_by_form (.down msg) fn =
        .error ⟨500, "Database connection failed: " ++ msg⟩) ∧
    (get_policy_type_by_form (.up s (some m)) fn =
        .error ⟨500, "Failed to fetch policy type: " ++ m⟩) ∧
    (get_coverages_by_form (.down msg) fn =
        .error ⟨500, "Database connection failed: " ++ msg⟩) ∧
    (get_coverages_by_form (.up s (some m)) fn =
        .error ⟨500, "Failed to fetch coverages: " ++ m⟩) ∧
    (get_coverage_terms (.down msg) fn cc =
        .error ⟨500, "Database connection failed: " ++ msg⟩) ∧
    (get_coverage_terms (.up s (some m)) fn cc =
        .error ⟨500, "Failed to fetch coverage terms: " ++ m⟩) ∧
    (get_ccq_list (.down msg) pf =
        .error ⟨500, "Database connection failed: " ++ msg⟩) ∧
    (get_ccq_list (.up s (some m)) pf =
        .error ⟨500, "Failed to fetch CCQ list: " ++ m⟩) ∧
    (get_all_paragraphs (.down msg) pf =
        .error ⟨500, "Database connection failed: " ++ msg⟩) ∧
    (get_all_paragraphs (.up s (some m)) pf =
        .error ⟨500, "Failed to fetch all paragraphs: " ++ m⟩) ∧
    (query_paragraphs (.down msg) terms pf ms =
        .error ⟨500, "Database connection failed: " ++ msg⟩) ∧
    (query_paragraphs (.up s (some m)) terms pf ms =
        .error ⟨500, "Failed to execute query: " ++ m⟩) :=
  ⟨rfl, rfl, rfl, rfl, rfl, rfl, rfl, rfl, rfl, rfl, rfl, rfl, rfl, rfl,
    rfl, rfl, rfl, rfl⟩

/-- C1 (code evaluated at the failing input): with the sample store,
looking up the present form `HO00030511` returns 200 with its
`Form_Type`; looking up the absent form `HO99993311` does **not** return
404 — the `HTTPException(404)` raised inside the `try` block is caught by
the handler's blanket `except Exception` and re-raised as a 500 whose
detail embeds the stringified 404. -/
theorem claim1_policy_type_lookup_eval :
    get_policy_type_by_form (.up sampleStore none) "HO00030511" =
      .ok "Homeowners" ∧
    get_policy_type_by_form (.up sampleStore none) "HO99993311" =
      .error ⟨500, "Failed to fetch policy type: " ++
        "404: Form not found with form number: HO99993311"⟩ := by
  exact ⟨rfl, rfl⟩

/-- C9 (counterexample): no route of the application is
`/test-connection`, neither at top level nor under the `/api/v1/graph`
prefix. -/
theorem claim9_counterexample :
    ((appRoutes.map Prod.snd).contains "/test-connection" = false) ∧
    ((appRoutes.map Prod.snd).contains "/api/v1/graph/test-connection" =
      false) := by
  constructor <;> rfl

/-- C9 (amended): the liveness probe the app actually exposes is
`GET /health`, which takes no inputs, touches no store (its embedding takes
no `Conn`), and returns `{status, version, environment}`. -/
theorem claim9_amended_health_route :
    ("GET", "/health") ∈ appRoutes ∧
    ∀ environment, health_check environment =
      { status := "healthy", version := "1.0.0",
        environment := environment } :=
  ⟨by decide, fun _ => rfl⟩

/-- C10: the legacy gateway's payload binds the empty parameter map
whatever `params` is (so `params` never influences the query sent), and
the row extraction keeps exactly the first column of each data item whose
row array is present and non-empty. -/
theorem claim10_legacy_gateway {α : Type} (query : String)
    (params1 params2 : List (String × String))
    (data : List (Option (List α))) :
    execute_query_payload query params1 =
      execute_query_payload query params2 ∧
    (execute_query_payload query params1).map Neo4jStatement.parameters =
      [[]] ∧
    extract_records data =
      data.filterMap (fun item => item.bind List.head?) := by
  refine ⟨rfl, rfl, ?_⟩
  induction data with
  | nil => rfl
  | cons item rest ih =>
    cases item with
    | none => simpa [extract_records, List.filterMap_cons] using ih
    | some row =>
      cases row with
      | nil => simpa [extract_records, List.filterMap_cons] using ih
      | cons v vs => simp [extract_records, List.filterMap_cons, ih]

/-- C3 (counterexample): called with empty required parameters and a live
store, the operations do **not** fail with InvalidInput (400) before the
query: the query runs, and the list operations answer 200 with an empty
result while `get_policy_type_by_form` answers its wrapped 500. -/
theorem claim3_counterexample :
    get_coverage_terms (.up sampleStore none) "" "" = .ok [] ∧
    get_coverages_by_form (.up sampleStore none) "" = .ok [] ∧
    get_policy_type_by_form (.up sampleStore none) "" =
      .error ⟨500, "Failed to fetch policy type: " ++
        "404: Form not found with form number: "⟩ := by
  exact ⟨rfl, rfl, rfl⟩

/-- C3 (amended): the handlers perform no emptiness validation: an empty
(or any) required string parameter is bound into the query, whose result is
returned as a 200; no handler ever produces a 400 — every error any of
them returns has status 500. -/
theorem claim3_amended_no_validation (s : GraphStore) (fn cc : String) :
    get_coverage_terms (.up s none) fn cc =
      .ok (q_coverage_terms s fn cc) ∧
    get_coverages_by_form (.up s none) fn =
      .ok (q_coverages_by_form s fn) ∧
    (∀ c e, get_coverage_terms c fn cc = .error e → e.status = 500) ∧
    (∀ c e, get_coverages_by_form c fn = .error e → e.status = 500) ∧
    (∀ c e, get_policy_type_by_form c fn = .error e → e.status = 500) := by
  refine ⟨rfl, rfl, ?_, ?_, ?_⟩ <;> intro c e <;> cases c with
  | down msg => exact connFail_error_status msg e
  | up s' qerr => exact handleExc_error_status _ _ e

/-- C3 witness: the amended theorem applied at concrete inputs. -/
theorem claim3_amended_witness :
    get_coverage_terms (.up sampleStore none) "" "" =
      .ok (q_coverage_terms sampleStore "" "") ∧
    (⟨500, "Database connection failed: boom"⟩ : HTTPError).status = 500 :=
  ⟨(claim3_amended_no_validation sampleStore "" "").1,
    (claim3_amended_no_validation sampleStore "" "").2.2.1 (.down "boom")
      ⟨500, "Database connection failed: boom"⟩ rfl⟩

/-- C8: `list_coverages_by_form` output has no duplicate
(coverage_code, coverage_name) row and is sorted ascending by
coverage_code; a live query returning zero rows still answers 200 with the
empty sequence, not an error. -/
theorem claim8_coverages_by_form (s : GraphStore) (fn : String) :
    (q_coverages_by_form s fn).Nodup ∧
    (q_coverages_by_form s fn).Sorted
      (keyLe strLt CoverageRow.coverage_code) ∧
    get_coverages_by_form (.up s none) fn =
      .ok (q_coverages_by_form s fn) ∧
    (q_coverages_by_form s fn = [] →
      get_coverages_by_form (.up s none) fn = .ok []) := by
  refine ⟨nodup_sortDedup _ _, sorted_insertionSort_key strLt_strict _ _,
    rfl, ?_⟩
  intro h
  have : get_coverages_by_form (.up s none) fn =
      .ok (q_coverages_by_form s fn) := rfl
  rw [this, h]

/-- C8 witness: on the empty store the traversal yields zero rows and the
operation answers 200 with the empty sequence. -/
theorem claim8_witness :
    q_coverages_by_form emptyStore "X" = [] ∧
    get_coverages_by_form (.up emptyStore none) "X" = .ok [] :=
  ⟨rfl, (claim8_coverages_by_form emptyStore "X").2.2.2 rfl⟩

/-- C4: with `terms = []` and `manually_selected_paragraphs = None`, the
term-mapping clause (an `ANY` over the empty list) and the manual-selection
clause (an `IN` over the empty list) can never match, so `POST /query`
returns exactly the rows projected from the paragraphs of the form whose
`Type` is `Policy Title Section`. -/
theorem claim4_query_title_section_only (s : GraphStore) (pf : String) :
    query_paragraphs (.up s none) [] pf none =
      .ok (q_query_paragraphs s pf [] []) ∧
    ∀ r, r ∈ q_query_paragraphs s pf [] [] ↔
      ∃ e ∈ s.paragraphs, e.2.Policy_Form = pf ∧
        e.2.Type = "Policy Title Section" ∧ r = paraProject e.2 := by
  refine ⟨rfl, ?_⟩
  intro r
  simp only [q_query_paragraphs, List.mem_insertionSort, List.mem_dedup,
    List.mem_map, List.mem_filter, paraMatches, List.any_nil,
    Bool.and_false, Bool.false_or, Bool.and_eq_true, Bool.or_eq_true,
    beq_iff_eq]
  constructor
  · rintro ⟨e, ⟨he, hpf, hcl⟩, hr⟩
    rcases hcl with hcl | hcl
    · exact ⟨e, he, hpf, hcl, hr.symm⟩
    · simp [List.elem_iff] at hcl
  · rintro ⟨e, he, hpf, hty, hr⟩
    exact ⟨e, ⟨he, hpf, Or.inl hty⟩, hr.symm⟩

/-- C5: with a non-empty `manually_selected_paragraphs`, `POST /query`
returns the union of the term-matching rows, the `Policy Title Section`
rows, and the rows whose stringified paragraph number appears among the
stringified selections (regardless of term mappings), deduplicated and
ordered ascending by `ParagraphNumber`. -/
theorem claim5_query_manual_union (s : GraphStore) (pf : String)
    (terms : List String) (ms : List Int) (hms : ms ≠ []) :
    query_paragraphs (.up s none) terms pf (some ms) =
      .ok (q_query_paragraphs s pf terms
        (ms.map (fun num => toString num))) ∧
    (∀ r, r ∈ q_query_paragraphs s pf terms
        (ms.map (fun num => toString num)) ↔
      ∃ e ∈ s.paragraphs, e.2.Policy_Form = pf ∧
        (((∃ x ∈ s.mapsTo, x.para = e.1) ∧
            ∃ t ∈ terms, ∃ x ∈ s.mapsTo, x.para = e.1 ∧ x.Term = t) ∨
          e.2.Type = "Policy Title Section" ∨
          toString e.2.Paragraph_Number ∈
            ms.map (fun num => toString num)) ∧
        r = paraProject e.2) ∧
    (q_query_paragraphs s pf terms
        (ms.map (fun num => toString num))).Nodup ∧
    (q_query_paragraphs s pf terms
        (ms.map (fun num => toString num))).Sorted
      (keyLe intLt ParagraphRow.ParagraphNumber) := by
  refine ⟨rfl, ?_, nodup_sortDedup _ _,
    sorted_insertionSort_key intLt_strict _ _⟩
  intro r
  simp only [q_query_paragraphs, List.mem_insertionSort, List.mem_dedup,
    List.mem_map, List.mem_filter, paraMatches, Bool.and_eq_true,
    Bool.or_eq_true, beq_iff_eq, List.any_eq_true, List.elem_iff]
  constructor
  · rintro ⟨e, ⟨he, hpf, hcl⟩, hr⟩
    refine ⟨e, he, hpf, ?_, hr.symm⟩
    rcases hcl with (hcl | hcl) | hcl
    · exact Or.inl hcl
    · exact Or.inr (Or.inl hcl)
    · exact Or.inr (Or.inr hcl)
  · rintro ⟨e, he, hpf, hcl, hr⟩
    refine ⟨e, ⟨he, hpf, ?_⟩, hr.symm⟩
    rcases hcl with hcl | hcl | hcl
    · exact Or.inl (Or.inl hcl)
    · exact Or.inl (Or.inr hcl)
    · exact Or.inr hcl

/-- C5 witness: the theorem applied with the non-empty selection `[2]`. -/
theorem claim5_witness :
    ([2] : List Int) ≠ [] ∧
    query_paragraphs (.up sampleStore none) [] "HO00030511" (some [2]) =
      .ok (q_query_paragraphs sampleStore "HO00030511" []
        (([2] : List Int).map (fun num => toString num))) :=
  ⟨by decide,
    (claim5_query_manual_union sampleStore "HO00030511" [] [2]
      (by decide)).1⟩

/-- C6: every row of `list_coverage_terms` has `map_type ≠ "None"` and
arises from a pattern match whose paragraph `Type` is neither
`Section Title` nor `Subsection Title`; the output is deduplicated and
sorted ascending by the triple (coverage_code, map_type, term). -/
theorem claim6_coverage_terms (s : GraphStore) (fn cc : String) :
    (∀ r ∈ q_coverage_terms s fn cc,
      r.map_type ≠ "None" ∧
      ∃ x ∈ s.mapsTo, ∃ y ∈ s.relatedCoverage, ∃ p c,
        findPara s x.para = some p ∧ findCov s y.cov = some c ∧
        y.para = x.para ∧ p.Policy_Form = fn ∧ c.Coverage = cc ∧
        p.Type ≠ "Section Title" ∧ p.Type ≠ "Subsection Title" ∧
        r = ⟨c.Coverage, x.Map_Type, x.Term⟩) ∧
    (q_coverage_terms s fn cc).Nodup ∧
    (q_coverage_terms s fn cc).Sorted (keyLe (lexListLt strLt) ctKey) := by
  refine ⟨?_, nodup_sortDedup _ _,
    sorted_insertionSort_key (lexListLt_strict strLt_strict) _ _⟩
  intro r hr
  simp only [q_coverage_terms, List.mem_insertionSort, List.mem_dedup,
    List.mem_bind, List.mem_filterMap] at hr
  obtain ⟨x, hx, y, hy, hrow⟩ := hr
  unfold coverageTermRow? at hrow
  split at hrow
  next p c hp hc =>
    split at hrow
    next hcond =>
      injection hrow with h
      subst h
      obtain ⟨h1, h2, h3, h4, h5, h6⟩ := hcond
      exact ⟨h3, x, hx, y, hy, p, c, hp, hc, h1, h2, h4, h5, h6, rfl⟩
    next => exact Option.noConfusion hrow
  next => exact Option.noConfusion hrow

/-- C6 witness: the theorem applied to the concrete row the sample store
produces. -/
theorem claim6_witness :
    (⟨"A", "Non-Covered Peril", "flood"⟩ : CoverageTermRow) ∈
        q_coverage_terms sampleStore "HO00030511" "A" ∧
    (⟨"A", "Non-Covered Peril", "flood"⟩ : CoverageTermRow).map_type ≠
      "None" :=
  ⟨by decide,
    ((claim6_coverage_terms sampleStore "HO00030511" "A").1
      ⟨"A", "Non-Covered Peril", "flood"⟩ (by decide)).1⟩

/-!
## Grouping lemmas for `/ccq-list`
-/

/-- The keys (map types) of a grouping. -/
def groupKeys (gs : List (String × List String)) : List String :=
  gs.map Prod.fst

/-- The term list stored under key `k` (empty if absent). -/
def lookupGroup (k : String) : List (String × List String) → List String
  | [] => []
  | g :: gs => if g.1 = k then g.2 else lookupGroup k gs

theorem mem_groupKeys_addToGroups (gs : List (String × List String))
    (mt t k : String) :
    k ∈ groupKeys (addToGroups gs mt t) ↔ k ∈ groupKeys gs ∨ k = mt := by
  induction gs with
  | nil => simp [addToGroups, groupKeys]
  | cons g gs ih =>
    by_cases hg : g.1 = mt
    · simp only [addToGroups, if_pos hg, groupKeys, List.map_cons,
        List.mem_cons]
      constructor
      · rintro (h | h)
        · exact Or.inl (Or.inl h)
        · exact Or.inl (Or.inr h)
      · rintro ((h | h) | h)
        · exact Or.inl h
        · exact Or.inr h
        · exact Or.inl (hg ▸ h)
    · simp only [addToGroups, if_neg hg, groupKeys, List.map_cons,
        List.mem_cons] at ih ⊢
      constructor
      · rintro (h | h)
        · exact Or.inl (Or.inl h)
        · rcases ih.mp h with h | h
          · exact Or.inl (Or.inr h)
          · exact Or.inr h
      · rintro ((h | h) | h)
        · exact Or.inl h
        · exact Or.inr (ih.mpr (Or.inl h))
        · exact Or.inr (ih.mpr (Or.inr h))

theorem nodup_groupKeys_addToGroups (gs : List (String × List String))
    (mt t : String) (h : (groupKeys gs).Nodup) :
    (groupKeys (addToGroups gs mt t)).Nodup := by
  induction gs with
  | nil => simp [addToGroups, groupKeys]
  | cons g gs ih =>
    simp only [groupKeys, List.map_cons, List.nodup_cons] at h
    by_cases hg : g.1 = mt
    · simpa [addToGroups, if_pos hg, groupKeys, List.nodup_cons] using h
    · simp only [addToGroups, if_neg hg, groupKeys, List.map_cons,
        List.nodup_cons]
      refine ⟨?_, ih h.2⟩
      intro hmem
      rcases (mem_groupKeys_addToGroups gs mt t g.1).mp hmem with hmem | hmem
      · exact h.1 hmem
      · exact hg hmem

theorem lookupGroup_addToGroups (gs : List (String × List String))
    (mt t k : String) :
    lookupGroup k (addToGroups gs mt t) =
      lookupGroup k gs ++ (if mt = k then [t] else []) := by
  induction gs with
  | nil =>
    by_cases hmk : mt = k <;> simp [addToGroups, lookupGroup, hmk]
  | cons g gs ih =>
    by_cases hg : g.1 = mt
    · by_cases hk : g.1 = k
      · have hmk : mt = k := by rw [← hg]; exact hk
        simp [addToGroups, if_pos hg, lookupGroup, hk, hmk]
      · have hmk : ¬ mt = k := fun h => hk (by rw [hg]; exact h)
        simp [addToGroups, if_pos hg, lookupGroup, hk, hmk]
    · have hstep : addToGroups (g :: gs) mt t = g :: addToGroups gs mt t := by
        simp [addToGroups, hg]
      by_cases hk : g.1 = k
      · have hmk : ¬ mt = k := fun h => hg (hk.trans h.symm)
        rw [hstep]
        simp [lookupGroup, hk, hmk]
      · rw [hstep]
        simp [lookupGroup, hk, ih]

theorem lookupGroup_foldl (rows : List (String × String))
    (gs : List (String × List String)) (k : String) :
    lookupGroup k (rows.foldl (fun gs r => addToGroups gs r.1 r.2) gs) =
      lookupGroup k gs ++
        (rows.filter (fun r => r.1 == k)).map Prod.snd := by
  induction rows generalizing gs with
  | nil => simp
  | cons r rest ih =>
    rw [List.foldl_cons, ih, lookupGroup_addToGroups, List.filter_cons]
    by_cases hrk : r.1 = k
    · simp [hrk]
    · simp [hrk]

theorem nodup_groupKeys_foldl (rows : List (String × String))
    (gs : List (String × List String)) (h : (groupKeys gs).Nodup) :
    (groupKeys
      (rows.foldl (fun gs r => addToGroups gs r.1 r.2) gs)).Nodup := by
  induction rows generalizing gs with
  | nil => exact h
  | cons r rest ih =>
    rw [List.foldl_cons]
    exact ih _ (nodup_groupKeys_addToGroups gs r.1 r.2 h)

theorem mem_groupKeys_foldl (rows : List (String × String))
    (gs : List (String × List String)) (k : String)
    (h : k ∈ groupKeys
      (rows.foldl (fun gs r => addToGroups gs r.1 r.2) gs)) :
    k ∈ groupKeys gs ∨ k ∈ rows.map Prod.fst := by
  induction rows generalizing gs with
  | nil => exact Or.inl h
  | cons r rest ih =>
    rw [List.foldl_cons] at h
    rcases ih _ h with h' | h'
    · rcases (mem_groupKeys_addToGroups gs r.1 r.2 k).mp h' with h'' | h''
      · exact Or.inl h''
      · exact Or.inr (by simp [h''])
    · exact Or.inr (by simp [h'])

theorem eq_lookupGroup_of_mem (gs : List (String × List String))
    (g : String × List String) (hnd : (groupKeys gs).Nodup) (hg : g ∈ gs) :
    g.2 = lookupGroup g.1 gs := by
  induction gs with
  | nil => cases hg
  | cons x rest ih =>
    simp only [groupKeys, List.map_cons, List.nodup_cons] at hnd
    rcases List.mem_cons.mp hg with hg | hg
    · subst hg
      simp [lookupGroup]
    · have hx : ¬ x.1 = g.1 := by
        intro hx
        exact hnd.1 (hx ▸ List.mem_map_of_mem Prod.fst hg)
      simp only [lookupGroup, if_neg hx]
      exact ih hnd.2 hg

/-- C7: every key of the grouping returned by `get_ccq_list` is one of
`Non-Covered Peril`, `Limit of Liability`, `Property Not Covered`, and each
key's term list is sorted ascending with no duplicate term within the
key. -/
theorem claim7_ccq_list_grouping (s : GraphStore) (pf : String) :
    get_ccq_list (.up s none) pf = .ok (ccqGroups (q_ccq s pf)) ∧
    ∀ g ∈ ccqGroups (q_ccq s pf),
      g.1 ∈ ["Non-Covered Peril", "Limit of Liability",
          "Property Not Covered"] ∧
      g.2.Sorted (keyLe strLt id) ∧ g.2.Nodup := by
  refine ⟨rfl, ?_⟩
  intro g hg
  have hkeys : (groupKeys (ccqGroups (q_ccq s pf))).Nodup :=
    nodup_groupKeys_foldl (q_ccq s pf) [] (by simp [groupKeys])
  have hcontent : g.2 =
      ((q_ccq s pf).filter (fun r => r.1 == g.1)).map Prod.snd := by
    have := eq_lookupGroup_of_mem _ g hkeys hg
    rw [this]
    simpa [lookupGroup] using lookupGroup_foldl (q_ccq s pf) [] g.1
  have hrows_sorted : (q_ccq s pf).Sorted (keyLe strLt Prod.snd) :=
    sorted_insertionSort_key strLt_strict _ _
  have hrows_nodup : (q_ccq s pf).Nodup := nodup_sortDedup _ _
  refine ⟨?_, ?_, ?_⟩
  · have hk : g.1 ∈ groupKeys (ccqGroups (q_ccq s pf)) :=
      List.mem_map_of_mem Prod.fst hg
    rcases mem_groupKeys_foldl (q_ccq s pf) [] g.1 hk with hk' | hk'
    · simp [groupKeys] at hk'
    · obtain ⟨r, hr, hr1⟩ := List.mem_map.mp hk'
      simp only [q_ccq, List.mem_insertionSort, List.mem_dedup,
        List.mem_filterMap] at hr
      obtain ⟨x, hx, hrow⟩ := hr
      unfold ccqRow? at hrow
      split at hrow
      next p hp =>
        split at hrow
        next hcond =>
          injection hrow with h
          subst h
          exact hr1 ▸ hcond.1
        next => exact Option.noConfusion hrow
      next => exact Option.noConfusion hrow
  · rw [hcontent]
    have hf : ((q_ccq s pf).filter (fun r => r.1 == g.1)).Sorted
        (keyLe strLt Prod.snd) :=
      List.Pairwise.sublist (List.filter_sublist _) hrows_sorted
    exact List.Pairwise.map Prod.snd (fun a b h => h) hf
  · rw [hcontent]
    refine List.Nodup.map_on ?_ (hrows_nodup.filter _)
    intro a ha b hb hab
    have ha1 : a.1 = g.1 := by
      have := (List.mem_filter.mp ha).2
      simpa using this
    have hb1 : b.1 = g.1 := by
      have := (List.mem_filter.mp hb).2
      simpa using this
    exact Prod.ext (ha1.trans hb1.symm) hab

/-- C7 witness: the theorem applied to the group the sample store yields. -/
theorem claim7_witness :
    (("Non-Covered Peril", ["flood"]) : String × List String) ∈
        ccqGroups (q_ccq sampleStore "HO00030511") ∧
    ("Non-Covered Peril" : String) ∈
      ["Non-Covered Peril", "Limit of Liability", "Property Not Covered"] :=
  ⟨by decide,
    ((claim7_ccq_list_grouping sampleStore "HO00030511").2
      ("Non-Covered Peril", ["flood"]) (by decide)).1⟩
